import Mathlib

/-
Verification of the client-side code samples and protocol descriptions in the
prixe-api/prixe documentation repository.

Each definition is a shallow embedding of a concrete code sample or documented
protocol from the repository:
  - the WebSocket client-to-server frame grammar (docs/endpoints/websocket.md)
  - the PrixeAPIClient error handler and the Python _handle_response
    (docs/error-handling.md)
  - the two exponentialBackoff helpers (docs/error-handling.md and the
    rate-limits document)
  - the CircuitBreaker snippet (docs/error-handling.md)
  - the ResponseCache snippet (rate-limits document)
  - the request header construction of PrixeAPI.request and
    PrixeAPIClient.makeRequest
  - the x402 payment flow (docs/endpoints/x402-payments.md)
  - the PriceAlertSystem (docs/endpoints/websocket.md)
  - the momentum trading loop of AutonomousStockAgent.runAutonomousTrading
    (examples/x402-integration/complete-example.js)
-/

/- A minimal JSON value type covering the shapes used by the documented wire
   frames. -/
inductive Json where
  | null : Json
  | str : String → Json
  | num : Int → Json
  | obj : List (String × Json) → Json

/- Field lookup on a JSON object, none on non-objects. -/
def Json.field : Json → String → Option Json
  | .obj fields, key => fields.lookup key
  | _, _ => none

/- The client-to-server frames of the WebSocket protocol, as documented in
   docs/endpoints/websocket.md: a subscribe frame carrying a ticker, and an
   unsubscribe frame. -/
inductive ClientFrame where
  | subscribe (ticker : String) : ClientFrame
  | unsubscribe : ClientFrame

/- JSON encoding of the client-to-server frames, transcribed from the frame
   examples in docs/endpoints/websocket.md lines 29-47: subscribe carries
   an object payload naming the ticker, unsubscribe carries a null payload. -/
def ClientFrame.encode : ClientFrame → Json
  | .subscribe ticker =>
      .obj [("event", .str "subscribe"), ("data", .obj [("ticker", .str ticker)])]
  | .unsubscribe =>
      .obj [("event", .str "unsubscribe"), ("data", .null)]

/- The ticker named in the data payload of a frame, when there is one. -/
def framePayloadTicker (j : Json) : Option String :=
  match j.field "data" with
  | some d =>
    match d.field "ticker" with
    | some (.str t) => some t
    | _ => none
  | none => none

/- Whether a frame names a ticker in its data payload. -/
def frameNamesTicker (j : Json) : Bool :=
  (framePayloadTicker j).isSome

/- The event discriminator of a frame. -/
def frameEvent (j : Json) : Option Json :=
  j.field "event"

/- An HTTP response as seen by the documented clients: a status code, a parsed
   JSON body, and the optional parsed Retry-After header. -/
structure HttpResponse where
  status : Nat
  body : Json
  retryAfter : Option Nat

/- The fetch response.ok predicate: status in the 2xx range. -/
def HttpResponse.respOk (r : HttpResponse) : Bool :=
  200 ≤ r.status && r.status < 300

/- The requests library response.ok predicate used by the Python client:
   status below 400. -/
def HttpResponse.pyOk (r : HttpResponse) : Bool :=
  r.status < 400

/- The error taxonomy of docs/error-handling.md: ValidationError (status 400),
   AuthenticationError (status 401), RateLimitError (status 429, carrying
   retryAfter), ServerError, and the base APIError carrying its status. -/
inductive ApiError where
  | validation : ApiError
  | authentication : ApiError
  | rateLimit (retryAfter : Nat) : ApiError
  | server (status : Nat) : ApiError
  | api (status : Nat) : ApiError
deriving DecidableEq

/- The status field of each error class, as set by the constructors in
   docs/error-handling.md. -/
def ApiError.status : ApiError → Nat
  | .validation => 400
  | .authentication => 401
  | .rateLimit _ => 429
  | .server s => s
  | .api s => s

/- Instance checks used by the retry helpers. -/
def ApiError.isServerError : ApiError → Bool
  | .server _ => true
  | _ => false

def ApiError.isRateLimitError : ApiError → Bool
  | .rateLimit _ => true
  | _ => false

/- PrixeAPIClient.handleError from docs/error-handling.md lines 147-163:
   switch on the response status; 429 reads the Retry-After header with
   default 60; any unlisted status raises the base APIError with that
   status. -/
def handleError (r : HttpResponse) : ApiError :=
  match r.status with
  | 400 => .validation
  | 401 => .authentication
  | 429 => .rateLimit (r.retryAfter.getD 60)
  | 500 => .server 500
  | s => .api s

/- PrixeAPIClient.makeRequest from docs/error-handling.md lines 120-145,
   restricted to its response handling: a non-ok response raises the error
   produced by handleError, an ok response returns the parsed JSON body. -/
def makeRequest (r : HttpResponse) : Except ApiError Json :=
  if r.respOk then .ok r.body else .error (handleError r)

/- PrixeAPIClient._handle_response from the Python client in
   docs/error-handling.md lines 279-300: returns unit on an ok response,
   otherwise raises by status, with every status at or above 500 mapped to
   ServerError carrying that status. -/
def pyHandleResponse (r : HttpResponse) : Except ApiError Unit :=
  if r.pyOk then .ok ()
  else if r.status = 400 then .error .validation
  else if r.status = 401 then .error .authentication
  else if r.status = 429 then .error (.rateLimit (r.retryAfter.getD 60))
  else if 500 ≤ r.status then .error (.server r.status)
  else .error (.api r.status)

/- The per-attempt delay of both documented backoff helpers:
   Math.min(1000 * Math.pow(2, attempt - 1), 30000). -/
def backoffDelay (attempt : Nat) : Nat :=
  min (1000 * 2 ^ (attempt - 1)) 30000

/- The loop body of exponentialBackoff from docs/error-handling.md lines
   343-359, running over the list of remaining attempt numbers (the JS loop
   visits attempts 1..maxRetries). The wrapped function is modelled by its
   outcome at each attempt number. The result records the delays slept, and
   either the thrown error, or the value returned; falling out of the loop
   (maxRetries = 0) yields none, as the JS function resolves undefined. -/
def ebARun (f : Nat → Except ApiError α) (maxRetries : Nat) :
    List Nat → List Nat → List Nat × Except ApiError (Option α)
  | [], delays => (delays, .ok none)
  | attempt :: rest, delays =>
    match f attempt with
    | .ok a => (delays, .ok (some a))
    | .error e =>
      if attempt = maxRetries then (delays, .error e)
      else if e.isServerError || e.isRateLimitError then
        ebARun f maxRetries rest (delays ++ [backoffDelay attempt])
      else (delays, .error e)

/- exponentialBackoff from docs/error-handling.md: attempts 1..maxRetries. -/
def exponentialBackoff (f : Nat → Except ApiError α) (maxRetries : Nat) :
    List Nat × Except ApiError (Option α) :=
  ebARun f maxRetries (List.range' 1 maxRetries) []

/- The loop body of the exponentialBackoff helper in the rate-limits document
   (src/unnamed/part_001 lines 81-94): it retries exactly when the error has
   status 429 and the attempt index is below maxRetries, with the same delay
   formula. -/
def ebBRun (f : Nat → Except ApiError α) (maxRetries : Nat) :
    List Nat → List Nat → List Nat × Except ApiError (Option α)
  | [], delays => (delays, .ok none)
  | attempt :: rest, delays =>
    match f attempt with
    | .ok a => (delays, .ok (some a))
    | .error e =>
      if e.status = 429 ∧ attempt < maxRetries then
        ebBRun f maxRetries rest (delays ++ [backoffDelay attempt])
      else (delays, .error e)

/- exponentialBackoff from the rate-limits document. -/
def exponentialBackoffRL (f : Nat → Except ApiError α) (maxRetries : Nat) :
    List Nat × Except ApiError (Option α) :=
  ebBRun f maxRetries (List.range' 1 maxRetries) []

/- A wrapped function that fails its first attempt with a ServerError and
   succeeds afterwards; it separates the two backoff helpers. -/
def cexServerOnce : Nat → Except ApiError Nat :=
  fun n => if n = 1 then .error (.server 500) else .ok 0

/- A wrapped function whose every failure is a RateLimitError. -/
def rlOnlyFn : Nat → Except ApiError Nat :=
  fun n => if n ≤ 2 then .error (.rateLimit 60) else .ok 7

/- The CLOSED / OPEN / HALF_OPEN states of the documented CircuitBreaker
   (docs/error-handling.md lines 370-409); opened models the JS string OPEN. -/
inductive CBState where
  | closed : CBState
  | opened : CBState
  | halfOpen : CBState
deriving DecidableEq

structure CircuitBreaker where
  failureThreshold : Nat
  timeout : Nat
  failureCount : Nat
  state : CBState
  nextAttempt : Nat
deriving DecidableEq

/- The constructor: threshold and timeout as given, failureCount 0, state
   CLOSED, nextAttempt = Date.now(). Time is an explicit Nat parameter. -/
def CircuitBreaker.create (threshold timeout now : Nat) : CircuitBreaker :=
  { failureThreshold := threshold, timeout := timeout, failureCount := 0,
    state := .closed, nextAttempt := now }

def CircuitBreaker.onSuccess (c : CircuitBreaker) : CircuitBreaker :=
  { c with failureCount := 0, state := .closed }

def CircuitBreaker.onFailure (c : CircuitBreaker) (now : Nat) : CircuitBreaker :=
  if c.failureThreshold ≤ c.failureCount + 1 then
    { c with failureCount := c.failureCount + 1, state := .opened,
             nextAttempt := now + c.timeout }
  else
    { c with failureCount := c.failureCount + 1 }

/- The entry guard of execute: when OPEN and before nextAttempt it throws
   (none); when OPEN at or after nextAttempt the state moves to HALF_OPEN;
   otherwise the breaker passes through unchanged. -/
def CircuitBreaker.gate (c : CircuitBreaker) (now : Nat) : Option CircuitBreaker :=
  match c.state with
  | .opened =>
    if now < c.nextAttempt then none
    else some { c with state := .halfOpen }
  | _ => some c

/- The observable outcome of one execute call: whether the wrapped function
   was invoked, whether execute threw, and the breaker afterwards. -/
structure ExecOutcome where
  fnInvoked : Bool
  threw : Bool
  breaker : CircuitBreaker
deriving DecidableEq

/- CircuitBreaker.execute, with the wrapped call modelled by whether it
   succeeds at this invocation. -/
def CircuitBreaker.execute (c : CircuitBreaker) (now : Nat) (fnSucceeds : Bool) :
    ExecOutcome :=
  match c.gate now with
  | none => { fnInvoked := false, threw := true, breaker := c }
  | some c2 =>
    if fnSucceeds then { fnInvoked := true, threw := false, breaker := c2.onSuccess }
    else { fnInvoked := true, threw := true, breaker := c2.onFailure now }

/- The ResponseCache of the rate-limits document (src/unnamed/part_001 lines
   193-221). The ttl field is in milliseconds (ttlSeconds * 1000) and the
   store keeps, per key, the cached data with the timestamp recorded by set.
   Date.now() is an explicit parameter of get and set. -/
structure ResponseCache (α : Type) where
  ttl : Nat
  store : String → Option (α × Nat)

def ResponseCache.create (α : Type) (ttlSeconds : Nat) : ResponseCache α :=
  { ttl := ttlSeconds * 1000, store := fun _ => none }

def ResponseCache.set (c : ResponseCache α) (key : String) (data : α) (now : Nat) :
    ResponseCache α :=
  { c with store := fun k => if k = key then some (data, now) else c.store k }

/- get returns the cached data unless the entry is absent or expired; an
   expired entry is deleted and null is returned. -/
def ResponseCache.get (c : ResponseCache α) (key : String) (now : Nat) :
    Option α × ResponseCache α :=
  match c.store key with
  | none => (none, c)
  | some (data, timestamp) =>
    if c.ttl < now - timestamp then
      (none, { c with store := fun k => if k = key then none else c.store k })
    else (some data, c)

def ResponseCache.clearAll (c : ResponseCache α) : ResponseCache α :=
  { c with store := fun _ => none }

/- The options argument a caller passes to the request helpers, and the
   JS header-object semantics: an object literal binds keys left to right
   with later bindings winning, a spread splices the bindings of the spread
   object at its position. Header objects are modelled as binding lists and
   getHeader returns the last binding of a key, matching JS objects. -/
structure FetchOptions where
  optMethod : Option String := none
  optBody : Option String := none
  optHeaders : Option (List (String × String)) := none

def getHeader : List (String × String) → String → Option String
  | [], _ => none
  | (k, v) :: rest, key =>
    match getHeader rest key with
    | some v2 => some v2
    | none => if k = key then some v else none

/- The default headers both helpers write first. -/
def defaultHeaders (apiKey : String) : List (String × String) :=
  [("Authorization", "Bearer " ++ apiKey), ("Content-Type", "application/json")]

/- PrixeAPI.request from the basic-usage example (src/unnamed/part_002 lines
   227-251): config = { method, headers: defaults, ...options }, so an
   options.headers binding replaces the default header object wholesale. -/
def PrixeAPI.requestHeaders (apiKey : String) (opts : FetchOptions) :
    List (String × String) :=
  match opts.optHeaders with
  | some hs => hs
  | none => defaultHeaders apiKey

/- PrixeAPIClient.makeRequest from docs/error-handling.md lines 120-145:
   config.headers = { Authorization, Content-Type, ...options.headers }, so
   caller headers are merged after the defaults, key by key. -/
def makeRequestHeaders (apiKey : String) (opts : FetchOptions) :
    List (String × String) :=
  defaultHeaders apiKey ++ opts.optHeaders.getD []

/- The x402 payment flow of docs/endpoints/x402-payments.md lines 17-22,
   as the sequence of its five numbered steps plus the final data delivery:
   request, 402 response with payment requirements, payment creation,
   retry carrying the payment header, server-side payment validation,
   data delivery. -/
inductive X402Event where
  | agentRequest : X402Event
  | respond402 : X402Event
  | createPayment : X402Event
  | retryWithPaymentHeader : X402Event
  | validatePayment : X402Event
  | deliverData : X402Event
deriving DecidableEq

def paymentFlow : List X402Event :=
  [.agentRequest, .respond402, .createPayment, .retryWithPaymentHeader,
   .validatePayment, .deliverData]

/- One step of the flow: from position n, only the documented next event is
   enabled. -/
def flowStep (n : Nat) (e : X402Event) : Option Nat :=
  if paymentFlow.get? n = some e then some (n + 1) else none

/- Running a candidate trace of events through the flow from position n;
   none when the trace deviates from the documented order. -/
def runFlow : Nat → List X402Event → Option Nat
  | n, [] => some n
  | n, e :: es =>
    match flowStep n e with
    | some m => runFlow m es
    | none => none

/- Server-to-client responses within the flow. -/
def X402Event.serverResponse : X402Event → Bool
  | .respond402 => true
  | .deliverData => true
  | _ => false

/- The PriceAlertSystem of docs/endpoints/websocket.md lines 437-503.
   Alerts live in a Map keyed by alert id; the callback is observed through
   the list of fired alerts. Prices are rationals. -/
inductive AlertDirection where
  | above : AlertDirection
  | below : AlertDirection
deriving DecidableEq

structure PriceAlert where
  ticker : String
  targetPrice : Rat
  direction : AlertDirection
deriving DecidableEq

/- The trigger condition of checkAlerts: direction above with
   currentPrice >= targetPrice, or below with currentPrice <= targetPrice. -/
def alertTriggered (a : PriceAlert) (currentPrice : Rat) : Bool :=
  match a.direction with
  | .above => a.targetPrice ≤ currentPrice
  | .below => currentPrice ≤ a.targetPrice

/- checkAlerts (lines 486-502): every triggered alert has its callback
   invoked and is deleted from the map; the result is the remaining map and
   the fired alerts in iteration order. -/
def checkAlerts (alerts : List (String × PriceAlert)) (currentPrice : Rat) :
    List (String × PriceAlert) × List (String × PriceAlert) :=
  (alerts.filter (fun p => ! alertTriggered p.2 currentPrice),
   alerts.filter (fun p => alertTriggered p.2 currentPrice))

/- A sequence of price_update events, each running checkAlerts on the current
   alert map; returns the final map and all fired alerts in order. -/
def runPriceUpdates (alerts : List (String × PriceAlert)) :
    List Rat → List (String × PriceAlert) × List (String × PriceAlert)
  | [] => (alerts, [])
  | p :: ps =>
    let fired := (checkAlerts alerts p).2
    let rest := runPriceUpdates (checkAlerts alerts p).1 ps
    (rest.1, fired ++ rest.2)

/- The momentum trading loop of AutonomousStockAgent.runAutonomousTrading
   (examples/x402-integration/complete-example.js lines 340-406). Cash and
   prices are rationals; the portfolio is a map from ticker to position. -/
structure Position where
  shares : Rat
  avgPrice : Rat
deriving DecidableEq

structure TradingState where
  cash : Rat
  portfolio : List (String × Position)
deriving DecidableEq

/- The loop starts with 10000 cash and an empty portfolio. -/
def startTrading : TradingState :=
  { cash := 10000, portfolio := [] }

def lookupPosition (portfolio : List (String × Position)) (ticker : String) :
    Option Position :=
  portfolio.lookup ticker

def setPosition (portfolio : List (String × Position)) (ticker : String)
    (pos : Position) : List (String × Position) :=
  (ticker, pos) :: portfolio.filter (fun p => p.1 ≠ ticker)

def erasePosition (portfolio : List (String × Position)) (ticker : String) :
    List (String × Position) :=
  portfolio.filter (fun p => p.1 ≠ ticker)

/- One pass of the per-ticker body of the trading loop, abstracted over the
   analysis outcome: a buy recommendation at the given price, a sell
   recommendation at the given price, or anything else (hold). -/
inductive TradeAction where
  | buy (ticker : String) (currentPrice : Rat) : TradeAction
  | sell (ticker : String) (currentPrice : Rat) : TradeAction
  | hold : TradeAction
deriving DecidableEq

/- The buy branch requires cash > currentPrice * 100 and moves exactly
   cost = 100 * currentPrice from cash into the position; the sell branch
   requires an existing position with shares > 0, adds the full proceeds
   shares * currentPrice to cash and deletes the position. -/
def tradeStep (s : TradingState) (a : TradeAction) : TradingState :=
  match a with
  | .buy ticker currentPrice =>
    if currentPrice * 100 < s.cash then
      let currentPosition := (lookupPosition s.portfolio ticker).getD
        { shares := 0, avgPrice := 0 }
      let cost := 100 * currentPrice
      { cash := s.cash - cost,
        portfolio := setPosition s.portfolio ticker
          { shares := currentPosition.shares + 100,
            avgPrice := (currentPosition.shares * currentPosition.avgPrice + cost)
              / (currentPosition.shares + 100) } }
    else s
  | .sell ticker currentPrice =>
    match lookupPosition s.portfolio ticker with
    | some pos =>
      if 0 < pos.shares then
        { cash := s.cash + pos.shares * currentPrice,
          portfolio := erasePosition s.portfolio ticker }
      else s
    | none => s
  | .hold => s

def runTrading (s : TradingState) (acts : List TradeAction) : TradingState :=
  acts.foldl tradeStep s

/- Market quotes are nonnegative; only sell steps feed a price into cash with
   a sign that matters for the cash invariant. -/
def sellPriceNonneg : TradeAction → Bool
  | .sell _ currentPrice => decide (0 ≤ currentPrice)
  | _ => true

/- Concrete inputs used to instantiate the theorems below. -/
def cbexample : CircuitBreaker :=
  { failureThreshold := 2, timeout := 10, failureCount := 1,
    state := .closed, nextAttempt := 0 }

def alertsExample : List (String × PriceAlert) :=
  [("1", { ticker := "AAPL", targetPrice := 200, direction := .above }),
   ("2", { ticker := "MSFT", targetPrice := 100, direction := .below })]

def actsExample : List TradeAction :=
  [.buy "AAPL" 50, .sell "AAPL" 60, .hold]

/-- C2, counterexample: the claim that every client-to-server frame names a
ticker in its data payload fails on the unsubscribe frame, whose documented
data payload is null. -/
theorem websocket_frames_name_ticker_cex :
    ¬ (∀ f : ClientFrame, frameNamesTicker (ClientFrame.encode f) = true) := by
  intro h
  exact absurd (h .unsubscribe) (by decide)

/-- C2, amended: every client-to-server frame is a JSON subscribe or
unsubscribe event frame; the subscribe frame names its ticker in the data
payload, while the unsubscribe frame carries a null data payload. -/
theorem websocket_client_frames (f : ClientFrame) :
    (frameEvent (ClientFrame.encode f) = some (.str "subscribe") ∨
      frameEvent (ClientFrame.encode f) = some (.str "unsubscribe")) ∧
    (∀ t, f = .subscribe t → framePayloadTicker (ClientFrame.encode f) = some t) ∧
    (f = .unsubscribe → (ClientFrame.encode f).field "data" = some .null) := by
  cases f with
  | subscribe t =>
    refine ⟨Or.inl rfl, ?_, ?_⟩
    · intro t2 ht
      cases ht
      rfl
    · intro h2
      exact ClientFrame.noConfusion h2
  | unsubscribe =>
    refine ⟨Or.inr rfl, ?_, fun _ => rfl⟩
    intro t2 ht
    exact ClientFrame.noConfusion ht

/-- C2, witness for the amended claim at the documented example frames. -/
theorem websocket_client_frames_witness :
    framePayloadTicker (ClientFrame.encode (.subscribe "AAPL")) = some "AAPL" ∧
    (ClientFrame.encode .unsubscribe).field "data" = some .null :=
  ⟨(websocket_client_frames (.subscribe "AAPL")).2.1 "AAPL" rfl,
   (websocket_client_frames .unsubscribe).2.2 rfl⟩

/-- C3: for every non-ok response the documented handlers raise: status 400
maps to ValidationError, 401 to AuthenticationError, 429 to RateLimitError
carrying the Retry-After value with default 60, 500 to ServerError, 503 to an
error of the taxonomy (the base APIError in the JS client, ServerError in the
Python client); on an ok response makeRequest returns the parsed body
unchanged. -/
theorem handleError_status_taxonomy (r : HttpResponse) :
    (r.status = 400 → handleError r = .validation) ∧
    (r.status = 401 → handleError r = .authentication) ∧
    (r.status = 429 → handleError r = .rateLimit (r.retryAfter.getD 60)) ∧
    (r.status = 429 → r.retryAfter = none → handleError r = .rateLimit 60) ∧
    (r.status = 500 → handleError r = .server 500) ∧
    (r.status = 503 →
      handleError r = .api 503 ∧ pyHandleResponse r = .error (.server 503)) ∧
    (r.respOk = false → makeRequest r = .error (handleError r)) ∧
    (r.respOk = true → makeRequest r = .ok r.body) ∧
    (r.pyOk = false → ∃ e, pyHandleResponse r = .error e) := by
  obtain ⟨s, b, ra⟩ := r
  refine ⟨?_, ?_, ?_, ?_, ?_, ?_, ?_, ?_, ?_⟩
  · intro h
    simp only [] at h
    subst h
    rfl
  · intro h
    simp only [] at h
    subst h
    rfl
  · intro h
    simp only [] at h
    subst h
    rfl
  · intro h h2
    simp only [] at h h2
    subst h
    subst h2
    rfl
  · intro h
    simp only [] at h
    subst h
    rfl
  · intro h
    simp only [] at h
    subst h
    exact ⟨rfl, rfl⟩
  · intro h
    simp [makeRequest, h]
  · intro h
    simp [makeRequest, h]
  · intro h
    simp only [pyHandleResponse, h, Bool.false_eq_true, if_false]
    split
    · exact ⟨_, rfl⟩
    · split
      · exact ⟨_, rfl⟩
      · split
        · exact ⟨_, rfl⟩
        · split
          · exact ⟨_, rfl⟩
          · exact ⟨_, rfl⟩

/-- C3, witness at concrete 400 and 503 responses. -/
theorem handleError_status_taxonomy_witness :
    handleError { status := 400, body := .null, retryAfter := none }
        = .validation ∧
    pyHandleResponse { status := 503, body := .null, retryAfter := none }
        = .error (.server 503) ∧
    makeRequest { status := 204, body := .num 1, retryAfter := none }
        = .ok (.num 1) :=
  ⟨(handleError_status_taxonomy _).1 rfl,
   ((handleError_status_taxonomy _).2.2.2.2.2.1 rfl).2,
   (handleError_status_taxonomy _).2.2.2.2.2.2.2.1 rfl⟩

/-- C5: for the exponentialBackoff helper of docs/error-handling.md, when
attempt n fails with a ServerError or RateLimitError and n is below
maxRetries, the loop sleeps exactly min(1000 * 2 ^ (n - 1), 30000) before
moving to the remaining attempts; an error of any other class is rethrown
without retrying; and a failure at attempt maxRetries is rethrown. -/
theorem exponentialBackoff_per_attempt (f : Nat → Except ApiError α)
    (maxRetries n : Nat) (rest delays : List Nat) (e : ApiError)
    (hf : f n = .error e) :
    (n < maxRetries → (e.isServerError || e.isRateLimitError) = true →
      ebARun f maxRetries (n :: rest) delays
        = ebARun f maxRetries rest (delays ++ [min (1000 * 2 ^ (n - 1)) 30000])) ∧
    ((e.isServerError || e.isRateLimitError) = false →
      ebARun f maxRetries (n :: rest) delays = (delays, .error e)) ∧
    (n = maxRetries → ebARun f maxRetries (n :: rest) delays = (delays, .error e)) := by
  refine ⟨?_, ?_, ?_⟩
  · intro h1 h2
    have hne : n ≠ maxRetries := Nat.ne_of_lt h1
    simp [ebARun, hf, hne, h2, backoffDelay]
  · intro h2
    by_cases hn : n = maxRetries
    · subst hn
      simp [ebARun, hf]
    · simp [ebARun, hf, hn, h2]
  · intro hn
    subst hn
    simp [ebARun, hf]

/-- C5, witness: the first attempt of cexServerOnce fails with a ServerError
below maxRetries = 3, and the recorded delay is 1000 ms. -/
theorem exponentialBackoff_per_attempt_witness :
    ebARun cexServerOnce 3 [1, 2, 3] []
      = ebARun cexServerOnce 3 [2, 3] ([] ++ [min (1000 * 2 ^ (1 - 1)) 30000]) :=
  (exponentialBackoff_per_attempt cexServerOnce 3 1 [2, 3] [] (.server 500)
    rfl).1 (by decide) (by decide)

/-- C1, counterexample: the two documented exponentialBackoff helpers do not
denote the same function: on a wrapped call whose first attempt fails with a
ServerError, the error-handling.md helper sleeps 1000 ms and retries to
success, while the rate-limits helper rethrows at once. -/
theorem backoff_helpers_equivalent_cex :
    exponentialBackoff cexServerOnce 2 ≠ exponentialBackoffRL cexServerOnce 2 := by
  have h1 : exponentialBackoff cexServerOnce 2 = ([1000], .ok (some 0)) := rfl
  have h2 : exponentialBackoffRL cexServerOnce 2 = ([], .error (.server 500)) := rfl
  rw [h1, h2]
  intro h
  exact absurd (congrArg Prod.fst h) (by decide)

/- The two loop bodies agree on every attempt list bounded by maxRetries when
   all failures of the wrapped function are RateLimitErrors. -/
theorem ebRun_agree_of_rateLimit (f : Nat → Except ApiError α) (maxRetries : Nat)
    (hf : ∀ n e, f n = .error e → ∃ ra, e = .rateLimit ra) :
    ∀ l delays, (∀ a ∈ l, a ≤ maxRetries) →
      ebARun f maxRetries l delays = ebBRun f maxRetries l delays := by
  intro l
  induction l with
  | nil =>
    intro delays h
    rfl
  | cons a l ih =>
    intro delays h
    have ha : a ≤ maxRetries := h a (List.mem_cons_self a l)
    cases hfa : f a with
    | ok v => simp [ebARun, ebBRun, hfa]
    | error e =>
      obtain ⟨ra, rfl⟩ := hf a e hfa
      by_cases hm : a = maxRetries
      · subst hm
        simp [ebARun, ebBRun, hfa, ApiError.status]
      · have hlt : a < maxRetries := lt_of_le_of_ne ha hm
        simp [ebARun, ebBRun, hfa, hm, hlt, ApiError.status,
          ApiError.isRateLimitError]
        exact ih _ (fun x hx => h x (List.mem_cons_of_mem a hx))

/-- C1, amended: the two helpers retry the same attempts, wait the same
delays, and throw in the same cases whenever every failure of the wrapped
function is a RateLimitError (status 429); they differ on other retriable
errors, as the error-handling.md helper also retries ServerError while the
rate-limits helper retries only status-429 errors. -/
theorem backoff_helpers_agree_on_rateLimit (f : Nat → Except ApiError α)
    (maxRetries : Nat) (hf : ∀ n e, f n = .error e → ∃ ra, e = .rateLimit ra) :
    exponentialBackoff f maxRetries = exponentialBackoffRL f maxRetries := by
  unfold exponentialBackoff exponentialBackoffRL
  refine ebRun_agree_of_rateLimit f maxRetries hf (List.range' 1 maxRetries) []
    (fun a ha => ?_)
  have h2 := List.mem_range'_1.mp ha
  omega

/-- C1, witness for the amended claim: a wrapped function failing only with
RateLimitErrors is treated identically by both helpers. -/
theorem backoff_helpers_agree_on_rateLimit_witness :
    exponentialBackoff rlOnlyFn 3 = exponentialBackoffRL rlOnlyFn 3 :=
  backoff_helpers_agree_on_rateLimit rlOnlyFn 3 (by
    intro n e h
    unfold rlOnlyFn at h
    by_cases hn : n ≤ 2
    · simp [hn] at h
      exact ⟨60, h.symm⟩
    · simp [hn] at h)

/- The entry guard preserves the failure count and threshold and never
   passes the breaker through in the OPEN state. -/
theorem gate_preserves_counts (c : CircuitBreaker) (now : Nat)
    (c2 : CircuitBreaker) (h : c.gate now = some c2) :
    c2.failureCount = c.failureCount ∧
    c2.failureThreshold = c.failureThreshold ∧
    c2.state ≠ .opened := by
  unfold CircuitBreaker.gate at h
  cases hs : c.state <;> rw [hs] at h
  · cases h
    exact ⟨rfl, rfl, by rw [hs]; exact fun hco => CBState.noConfusion hco⟩
  · by_cases ht : now < c.nextAttempt
    · simp [ht] at h
    · simp [ht] at h
      cases h
      exact ⟨rfl, rfl, fun hco => CBState.noConfusion hco⟩
  · cases h
    exact ⟨rfl, rfl, by rw [hs]; exact fun hco => CBState.noConfusion hco⟩

/-- C4: the documented CircuitBreaker starts CLOSED with failureCount 0; a
failure of the wrapped call increments failureCount and the state is OPEN
exactly when the count has reached failureThreshold; while OPEN before
nextAttempt, execute throws without invoking the wrapped function; a call at
or after nextAttempt moves the state to HALF_OPEN; every success resets
failureCount to 0 and the state to CLOSED. -/
theorem circuitBreaker_state_machine (threshold timeout now : Nat)
    (c : CircuitBreaker) (b : Bool) :
    ((CircuitBreaker.create threshold timeout now).state = .closed ∧
      (CircuitBreaker.create threshold timeout now).failureCount = 0) ∧
    (∀ c2, c.gate now = some c2 →
      (c.execute now false).breaker.failureCount = c.failureCount + 1 ∧
      ((c.execute now false).breaker.state = .opened ↔
        c.failureThreshold ≤ c.failureCount + 1)) ∧
    (c.state = .opened → now < c.nextAttempt →
      c.execute now b = { fnInvoked := false, threw := true, breaker := c }) ∧
    (c.state = .opened → c.nextAttempt ≤ now →
      c.gate now = some { c with state := .halfOpen }) ∧
    (∀ c2, c.gate now = some c2 →
      (c.execute now true).breaker.failureCount = 0 ∧
      (c.execute now true).breaker.state = .closed) := by
  refine ⟨⟨rfl, rfl⟩, ?_, ?_, ?_, ?_⟩
  · intro c2 hg
    obtain ⟨hfc, hft, hst⟩ := gate_preserves_counts c now c2 hg
    by_cases hth : c.failureThreshold ≤ c.failureCount + 1
    · have hth2 : c2.failureThreshold ≤ c2.failureCount + 1 := by
        rw [hfc, hft]
        exact hth
      simp [CircuitBreaker.execute, hg, CircuitBreaker.onFailure, hth2, hth, hfc,
        hft]
    · have hth2 : ¬ c2.failureThreshold ≤ c2.failureCount + 1 := by
        rw [hfc, hft]
        exact hth
      simp [CircuitBreaker.execute, hg, CircuitBreaker.onFailure, hth2, hth, hfc,
        hft, hst]
  · intro hs ht
    simp [CircuitBreaker.execute, CircuitBreaker.gate, hs, ht]
  · intro hs ht
    simp [CircuitBreaker.gate, hs, Nat.not_lt.mpr ht]
  · intro c2 hg
    simp [CircuitBreaker.execute, hg, CircuitBreaker.onSuccess]

/-- C4, witness: a breaker one failure below its threshold of 2 trips to
OPEN on the next failure. -/
theorem circuitBreaker_state_machine_witness :
    (cbexample.execute 5 false).breaker.state = .opened ∧
    (cbexample.execute 5 false).breaker.failureCount = 2 := by
  have h := (circuitBreaker_state_machine 2 10 5 cbexample false).2.1 cbexample rfl
  exact ⟨h.2.mpr (by decide), h.1⟩

/-- C6: for the documented ResponseCache with TTL t seconds, get immediately
after set returns the datum just stored; a get more than t seconds after the
most recent set of the key returns null and removes the entry; and a get on
a key never set, or after clear, returns null. -/
theorem responseCache_ttl (ttlSeconds : Nat) (c : ResponseCache α) (k : String)
    (d : α) (now later : Nat) :
    (((c.set k d now).get k now).1 = some d) ∧
    (c.ttl = ttlSeconds * 1000 → now ≤ later → ttlSeconds * 1000 < later - now →
      ((c.set k d now).get k later).1 = none ∧
      ((c.set k d now).get k later).2.store k = none) ∧
    (((ResponseCache.create α ttlSeconds).get k now).1 = none) ∧
    ((c.clearAll.get k now).1 = none) := by
  refine ⟨?_, ?_, rfl, rfl⟩
  · simp [ResponseCache.get, ResponseCache.set]
  · intro httl hle hlt
    constructor
    · simp [ResponseCache.get, ResponseCache.set, httl, hlt]
    · simp [ResponseCache.get, ResponseCache.set, httl, hlt]

/-- C6, witness: with a 60 second TTL, a get 61 seconds after set misses and
evicts, while an immediate get hits. -/
theorem responseCache_ttl_witness :
    ((((ResponseCache.create Nat 60).set "price_AAPL" 42 0).get "price_AAPL"
        61000).1 = none) ∧
    ((((ResponseCache.create Nat 60).set "price_AAPL" 42 0).get "price_AAPL"
        0).1 = some 42) :=
  ⟨((responseCache_ttl 60 (ResponseCache.create Nat 60) "price_AAPL" 42 0
      61000).2.1 rfl (by decide) (by decide)).1,
   (responseCache_ttl 60 (ResponseCache.create Nat 60) "price_AAPL" 42 0
      61000).1⟩

/- Header lists with no binding for a key look the key up in the earlier
   part of a merged header object. -/
theorem getHeader_eq_none_of_no_key (key : String) :
    ∀ hs : List (String × String), (∀ p ∈ hs, p.1 ≠ key) →
      getHeader hs key = none := by
  intro hs
  induction hs with
  | nil => intro h; rfl
  | cons p hs ih =>
    intro h
    obtain ⟨k, v⟩ := p
    have hk : k ≠ key := h (k, v) (List.mem_cons_self _ _)
    simp only [getHeader, ih (fun q hq => h q (List.mem_cons_of_mem _ hq)), hk,
      if_false]

theorem getHeader_append_of_right_none (key : String) (ys : List (String × String))
    (hy : getHeader ys key = none) :
    ∀ xs : List (String × String), getHeader (xs ++ ys) key = getHeader xs key := by
  intro xs
  induction xs with
  | nil => simpa using hy
  | cons p xs ih =>
    obtain ⟨k, v⟩ := p
    simp only [List.cons_append, getHeader, List.append_eq, ih]

/-- C7, counterexample: the claim fails as universally quantified over the
options argument: a caller-supplied headers object makes PrixeAPI.request
drop the Authorization header entirely, because the options spread replaces
the default header object wholesale. -/
theorem request_headers_cex :
    getHeader (PrixeAPI.requestHeaders "K" { optHeaders := some [("X-Debug", "1")] })
      "Authorization" ≠ some ("Bearer " ++ "K") := by
  decide

/-- C7, amended: both helpers attach Authorization: Bearer key and
Content-Type: application/json whenever the caller passes no headers in
options; when options.headers is supplied, PrixeAPIClient.makeRequest still
attaches each default header unless the supplied headers rebind that exact
key, while PrixeAPI.request replaces the default headers wholesale with the
supplied ones. -/
theorem request_headers_amended (apiKey : String) (opts : FetchOptions) :
    (opts.optHeaders = none →
      getHeader (PrixeAPI.requestHeaders apiKey opts) "Authorization"
          = some ("Bearer " ++ apiKey) ∧
      getHeader (PrixeAPI.requestHeaders apiKey opts) "Content-Type"
          = some "application/json" ∧
      getHeader (makeRequestHeaders apiKey opts) "Authorization"
          = some ("Bearer " ++ apiKey) ∧
      getHeader (makeRequestHeaders apiKey opts) "Content-Type"
          = some "application/json") ∧
    (∀ hs, opts.optHeaders = some hs → PrixeAPI.requestHeaders apiKey opts = hs) ∧
    (∀ hs, opts.optHeaders = some hs → (∀ p ∈ hs, p.1 ≠ "Authorization") →
      getHeader (makeRequestHeaders apiKey opts) "Authorization"
          = some ("Bearer " ++ apiKey)) ∧
    (∀ hs, opts.optHeaders = some hs → (∀ p ∈ hs, p.1 ≠ "Content-Type") →
      getHeader (makeRequestHeaders apiKey opts) "Content-Type"
          = some "application/json") := by
  refine ⟨?_, ?_, ?_, ?_⟩
  · intro h
    refine ⟨?_, ?_, ?_, ?_⟩
    · simp [PrixeAPI.requestHeaders, h, defaultHeaders, getHeader]
    · simp [PrixeAPI.requestHeaders, h, defaultHeaders, getHeader]
    · simp [makeRequestHeaders, h, defaultHeaders, getHeader]
    · simp [makeRequestHeaders, h, defaultHeaders, getHeader]
  · intro hs h
    simp [PrixeAPI.requestHeaders, h]
  · intro hs h hna
    have hnone := getHeader_eq_none_of_no_key "Authorization" hs hna
    unfold makeRequestHeaders
    rw [h]
    simp only [Option.getD_some]
    rw [getHeader_append_of_right_none "Authorization" hs hnone]
    simp [defaultHeaders, getHeader]
  · intro hs h hnc
    have hnone := getHeader_eq_none_of_no_key "Content-Type" hs hnc
    unfold makeRequestHeaders
    rw [h]
    simp only [Option.getD_some]
    rw [getHeader_append_of_right_none "Content-Type" hs hnone]
    simp [defaultHeaders, getHeader]

/-- C7, witness for the amended claim at an empty options argument. -/
theorem request_headers_amended_witness :
    getHeader (PrixeAPI.requestHeaders "K2" {}) "Authorization"
        = some ("Bearer " ++ "K2") ∧
    getHeader (makeRequestHeaders "K2" {}) "Content-Type"
        = some "application/json" :=
  ⟨((request_headers_amended "K2" {}).1 rfl).1,
   ((request_headers_amended "K2" {}).1 rfl).2.2.2⟩

/- A trace accepted by the flow reads off the documented event order from
   its starting position. -/
theorem runFlow_get (tr : List X402Event) :
    ∀ n k, runFlow n tr = some k →
      ∀ i, i < tr.length → tr.get? i = paymentFlow.get? (n + i) := by
  induction tr with
  | nil =>
    intro n k h i hi
    simp at hi
  | cons e es ih =>
    intro n k h i hi
    unfold runFlow at h
    cases hstep : flowStep n e with
    | none =>
      rw [hstep] at h
      simp at h
    | some m =>
      rw [hstep] at h
      unfold flowStep at hstep
      split at hstep
      · rename_i hpf
        have hm : m = n + 1 := by
          injection hstep with h2
          exact h2.symm
        subst hm
        cases i with
        | zero =>
          simpa using hpf.symm
        | succ i2 =>
          have harith : n + (i2 + 1) = (n + 1) + i2 := by omega
          rw [harith]
          exact ih (n + 1) k h i2 (by simpa using hi)
      · exact absurd hstep (by simp)

/- The only positions of the documented flow carrying a server response are
   the 402 response (position 1) and the data delivery (position 5). -/
theorem paymentFlow_server_index (i : Nat) (e : X402Event)
    (h : paymentFlow.get? i = some e) (hs : e.serverResponse = true) :
    i = 1 ∨ i = 5 := by
  match i with
  | 0 =>
    rw [show paymentFlow.get? 0 = some .agentRequest from rfl] at h
    cases h
    exact absurd hs (by decide)
  | 1 => exact Or.inl rfl
  | 2 =>
    rw [show paymentFlow.get? 2 = some .createPayment from rfl] at h
    cases h
    exact absurd hs (by decide)
  | 3 =>
    rw [show paymentFlow.get? 3 = some .retryWithPaymentHeader from rfl] at h
    cases h
    exact absurd hs (by decide)
  | 4 =>
    rw [show paymentFlow.get? 4 = some .validatePayment from rfl] at h
    cases h
    exact absurd hs (by decide)
  | 5 => exact Or.inr rfl
  | n + 6 =>
    rw [show paymentFlow.get? (n + 6) = ([] : List X402Event).get? n from rfl] at h
    simp at h

/- Data delivery sits at position 5 of the documented flow. -/
theorem paymentFlow_deliver_index (i : Nat)
    (h : paymentFlow.get? i = some .deliverData) : i = 5 := by
  have := paymentFlow_server_index i .deliverData h (by decide)
  rcases this with h1 | h5
  · subst h1
    rw [show paymentFlow.get? 1 = some .respond402 from rfl] at h
    cases h
  · exact h5

/-- C8: in every trace accepted by the documented x402 payment flow, the
first server response is the 402 carrying the payment requirements, data is
delivered only after the retry that carries the payment header, and the
server-side payment validation precedes the data delivery. -/
theorem x402_payment_flow (tr : List X402Event) (k : Nat)
    (h : runFlow 0 tr = some k) :
    (∀ i e, tr.get? i = some e → e.serverResponse = true →
      (∀ j, j < i → ∀ e2, tr.get? j = some e2 → e2.serverResponse = false) →
      e = .respond402) ∧
    (∀ i, tr.get? i = some .deliverData →
      ∃ j, j < i ∧ tr.get? j = some .retryWithPaymentHeader) ∧
    (∀ i, tr.get? i = some .deliverData →
      ∃ j, j < i ∧ tr.get? j = some .validatePayment) := by
  have hget : ∀ i, i < tr.length → tr.get? i = paymentFlow.get? i := by
    intro i hi
    have := runFlow_get tr 0 k h i hi
    simpa using this
  have hlen : ∀ i (e : X402Event), tr.get? i = some e → i < tr.length := by
    intro i e he
    by_contra hcon
    rw [List.get?_eq_none.mpr (by omega)] at he
    exact Option.noConfusion he
  refine ⟨?_, ?_, ?_⟩
  · intro i e hi hs hfirst
    have hl := hlen i e hi
    have hpf : paymentFlow.get? i = some e := by
      rw [← hget i hl]
      exact hi
    rcases paymentFlow_server_index i e hpf hs with h1 | h5
    · subst h1
      rw [show paymentFlow.get? 1 = some .respond402 from rfl] at hpf
      injection hpf with h2
      exact h2.symm
    · subst h5
      have h1tr : tr.get? 1 = some .respond402 := by
        rw [hget 1 (by omega)]
        rfl
      have := hfirst 1 (by omega) .respond402 h1tr
      exact absurd this (by decide)
  · intro i hi
    have hl := hlen i _ hi
    have hpf : paymentFlow.get? i = some .deliverData := by
      rw [← hget i hl]
      exact hi
    have h5 := paymentFlow_deliver_index i hpf
    subst h5
    refine ⟨3, by omega, ?_⟩
    rw [hget 3 (by omega)]
    rfl
  · intro i hi
    have hl := hlen i _ hi
    have hpf : paymentFlow.get? i = some .deliverData := by
      rw [← hget i hl]
      exact hi
    have h5 := paymentFlow_deliver_index i hpf
    subst h5
    refine ⟨4, by omega, ?_⟩
    rw [hget 4 (by omega)]
    rfl

/-- C8, witness: the full documented flow is accepted, and its data delivery
at position 5 is preceded by the payment validation. -/
theorem x402_payment_flow_witness :
    runFlow 0 paymentFlow = some 6 ∧
    (∃ j, j < 5 ∧ paymentFlow.get? j = some .validatePayment) :=
  ⟨by decide, (x402_payment_flow paymentFlow 6 (by decide)).2.2 5 (by decide)⟩

/- Every alert fired over a sequence of price updates was registered at the
   start of the sequence. -/
theorem runPriceUpdates_fired_subset (ps : List Rat) :
    ∀ (alerts : List (String × PriceAlert)) e,
      e ∈ (runPriceUpdates alerts ps).2 → e ∈ alerts := by
  induction ps with
  | nil =>
    intro alerts e h
    simp [runPriceUpdates] at h
  | cons p ps ih =>
    intro alerts e h
    simp only [runPriceUpdates] at h
    rcases List.mem_append.mp h with h1 | h2
    · simp only [checkAlerts] at h1
      exact (List.mem_filter.mp h1).1
    · have h3 := ih (checkAlerts alerts p).1 e h2
      simp only [checkAlerts] at h3
      exact (List.mem_filter.mp h3).1

/- With distinct alert ids, the ids fired over a sequence of price updates
   are pairwise distinct: a deleted alert can never fire again. -/
theorem runPriceUpdates_fired_nodup (ps : List Rat) :
    ∀ alerts : List (String × PriceAlert), (alerts.map Prod.fst).Nodup →
      ((runPriceUpdates alerts ps).2.map Prod.fst).Nodup := by
  induction ps with
  | nil =>
    intro alerts h
    simp [runPriceUpdates]
  | cons p ps ih =>
    intro alerts h
    simp only [runPriceUpdates, List.map_append]
    refine List.Nodup.append ?_ ?_ ?_
    · refine List.Nodup.sublist ?_ h
      exact List.Sublist.map Prod.fst (List.filter_sublist alerts)
    · refine ih (checkAlerts alerts p).1 ?_
      refine List.Nodup.sublist ?_ h
      simp only [checkAlerts]
      exact List.Sublist.map Prod.fst (List.filter_sublist alerts)
    · intro k hk1 hk2
      obtain ⟨e1, he1, hke1⟩ := List.mem_map.mp hk1
      obtain ⟨e2, he2, hke2⟩ := List.mem_map.mp hk2
      have he2f : e2 ∈ (checkAlerts alerts p).1 :=
        runPriceUpdates_fired_subset ps _ e2 he2
      simp only [checkAlerts] at he1 he2f
      have he1A : e1 ∈ alerts := (List.mem_filter.mp he1).1
      have htrig := (List.mem_filter.mp he1).2
      have he2A : e2 ∈ alerts := (List.mem_filter.mp he2f).1
      have hnot := (List.mem_filter.mp he2f).2
      have heq : e1 = e2 :=
        List.inj_on_of_nodup_map h he1A he2A (by rw [hke1, hke2])
      subst heq
      rw [htrig] at hnot
      simp at hnot

/-- C9: in the PriceAlertSystem, on each price update an alert fires exactly
when its direction is above and the price has reached its target, or below
and the price has fallen to its target; a fired alert is removed from the
map, so across any sequence of price updates each registered alert id fires
at most once. -/
theorem priceAlertSystem_fires_once (alerts : List (String × PriceAlert))
    (p : Rat) (ps : List Rat) (h : (alerts.map Prod.fst).Nodup) :
    (∀ e ∈ alerts, (e ∈ (checkAlerts alerts p).2 ↔ alertTriggered e.2 p = true)) ∧
    (∀ e ∈ (checkAlerts alerts p).2, e ∉ (checkAlerts alerts p).1) ∧
    (∀ key : String, ((runPriceUpdates alerts ps).2.map Prod.fst).count key ≤ 1) := by
  refine ⟨?_, ?_, ?_⟩
  · intro e he
    simp only [checkAlerts]
    constructor
    · intro hm
      exact (List.mem_filter.mp hm).2
    · intro ht
      exact List.mem_filter.mpr ⟨he, ht⟩
  · intro e he hin
    simp only [checkAlerts] at he hin
    have h1 := (List.mem_filter.mp he).2
    have h2 := (List.mem_filter.mp hin).2
    rw [h1] at h2
    simp at h2
  · intro key
    exact List.nodup_iff_count_le_one.mp (runPriceUpdates_fired_nodup ps alerts h) key

/-- C9, witness: the AAPL above-200 alert fires on a 250 update and its id
fires at most once over the update sequence 250, 300. -/
theorem priceAlertSystem_fires_once_witness :
    ("1", { ticker := "AAPL", targetPrice := 200, direction := .above })
        ∈ (checkAlerts alertsExample 250).2 ∧
    ((runPriceUpdates alertsExample [250, 300]).2.map Prod.fst).count "1" ≤ 1 := by
  have h := priceAlertSystem_fires_once alertsExample 250 [250, 300] (by decide)
  exact ⟨(h.1 _ (by decide)).mpr (by decide), h.2.2 "1"⟩

/- The cash invariant of the momentum trading loop: a guarded buy keeps cash
   strictly positive, a guarded sell adds nonnegative proceeds. -/
theorem runTrading_cash_pos (acts : List TradeAction) :
    ∀ s : TradingState, 0 < s.cash → (∀ a ∈ acts, sellPriceNonneg a = true) →
      0 < (runTrading s acts).cash := by
  induction acts with
  | nil =>
    intro s hs h
    simpa [runTrading] using hs
  | cons a acts ih =>
    intro s hs h
    have hstep : 0 < (tradeStep s a).cash := by
      cases a with
      | buy t price =>
        by_cases hlt : price * 100 < s.cash
        · simp only [tradeStep, hlt, if_true]
          linarith
        · simp only [tradeStep, hlt, if_false]
          exact hs
      | sell t price =>
        have hp : (0 : Rat) ≤ price := by
          have h2 := h _ (List.mem_cons_self _ _)
          simpa [sellPriceNonneg] using h2
        cases hl : lookupPosition s.portfolio t with
        | none =>
          simp only [tradeStep, hl]
          exact hs
        | some pos =>
          by_cases hsh : 0 < pos.shares
          · simp only [tradeStep, hl, hsh, if_true]
            have hnn : 0 ≤ pos.shares * price := mul_nonneg (le_of_lt hsh) hp
            linarith
          · simp only [tradeStep, hl, hsh, if_false]
            exact hs
      | hold => exact hs
    have hrun := ih (tradeStep s a) hstep (fun x hx => h x (List.mem_cons_of_mem a hx))
    simpa [runTrading] using hrun

/-- C10: in the momentum strategy of runAutonomousTrading, a buy happens only
when cash strictly exceeds 100 times the current price and moves exactly that
cost out of cash, a sell adds the full proceeds of the position to cash, and
along every action sequence with nonnegative market quotes the cash balance
stays strictly positive from its starting value 10000. -/
theorem momentum_cash_positive (acts : List TradeAction)
    (h : ∀ a ∈ acts, sellPriceNonneg a = true) :
    (∀ (s : TradingState) (t : String) (price : Rat), price * 100 < s.cash →
      (tradeStep s (.buy t price)).cash = s.cash - 100 * price) ∧
    (∀ (s : TradingState) (t : String) (price : Rat), ¬ price * 100 < s.cash →
      tradeStep s (.buy t price) = s) ∧
    (∀ (s : TradingState) (t : String) (price : Rat) (pos : Position),
      lookupPosition s.portfolio t = some pos → 0 < pos.shares →
      (tradeStep s (.sell t price)).cash = s.cash + pos.shares * price) ∧
    0 < (runTrading startTrading acts).cash := by
  refine ⟨?_, ?_, ?_, ?_⟩
  · intro s t price hlt
    simp [tradeStep, hlt]
  · intro s t price hlt
    simp [tradeStep, hlt]
  · intro s t price pos hl hsh
    simp [tradeStep, hl, hsh]
  · exact runTrading_cash_pos acts startTrading (by norm_num [startTrading]) h

/-- C10, witness: along a concrete buy-sell-hold action sequence the final
cash balance is strictly positive. -/
theorem momentum_cash_positive_witness :
    0 < (runTrading startTrading actsExample).cash :=
  (momentum_cash_positive actsExample (by decide)).2.2.2
